import Mathlib

/-!
Verification of the `classad` repository (HTCondor ClassAd expression language,
Python) against its natural-language specification.

Shallow-embedding conventions:

* Python `int` is modelled by `Int`, Python `float` (IEEE double) by `Rat` with
  exact arithmetic: every claim checked here concerns type propagation and
  exact small-number arithmetic, never rounding.
* The runtime classes `HTCInt, HTCFloat, HTCStr, HTCBool, Undefined, Error,
  HTCList, ClassAd` of `_primitives.py` / `_expression.py`, together with the
  compound expression nodes, are the constructors of one type `Term`, mirroring
  the source where primitives are expressions that evaluate to themselves.
  A plain Python `int`/`float`/`str`/`bool`/`tuple` produced by an inherited
  builtin operation (e.g. `str.__add__`) is represented by the same constructor
  as its HTC subclass: the two are indistinguishable for every property below.
* Python's `NotImplemented` sentinel, which `eq_operator`/`ne_operator` can
  return as a result, is the constructor `Term.notimpl`.
* Raised exceptions are an `Except Exc _`; `Exc.fuelExhausted` stands for
  Python's `RecursionError`, which no `except` clause of the source catches.
* Attribute names are case-folded with `String.toLower`; for the ASCII names
  of the source and its tests this agrees with Python's `str.casefold`.
* `CompoundExpression` (base class of `ClassAd` and the expression nodes) is
  imported by `_expression.py` but its defining file is not under `src/`.
  Modelled from the spec: it adds no operator methods beyond `Expression`
  (which defines none), so `__htc_eq__`, `__and__`, `__mul__`, ... are absent
  on compound objects; a lookup of a missing `__htc_eq__` raises
  `AttributeError`, which `ArithmeticExpression._calculate` converts to the
  Error value, matching the spec's "record combinations yield Error".
-/

namespace ClassadModel

/-- Python exception classes distinguished by the `except` clauses of the
source (`_calculate` catches `ArithmeticError, AttributeError, TypeError`;
`HTCInt.__truediv__` catches `ZeroDivisionError`; `quantize` catches
`TypeError`; `ClassAd.__getitem__` catches `KeyError`). `fuelExhausted`
models `RecursionError`, which nothing in the source catches. -/
inductive Exc where
  | typeError
  | attributeError
  | zeroDivision
  | indexError
  | keyError
  | valueError
  | nameError
  | fuelExhausted
deriving DecidableEq, Repr

/-- The `_expression` payload of an `AttributeExpression` as built by
`AttributeExpression.from_grammar`: a bare name string, a flat tuple of name
strings (dotted chain, possibly starting with `my`/`target`/`.`), or a pair
of a head string with a nested tuple of names (e.g. `("target", ("a","b"))`
for `target.a.b`). -/
inductive PyName where
  | s (v : String)
  | t (vs : List String)
  | pr (x : String) (ys : List String)
deriving DecidableEq, Repr

/-- Runtime objects of the embedded interpreter: the eight lattice values,
Python's `NotImplemented`, and the unevaluated expression nodes the claims
need (`AttributeExpression`, binary `ArithmeticExpression`, `DotExpression`,
`SubscriptableExpression`).  Records (`ClassAd`) carry their attributes as an
insertion-ordered association list with case-folded keys, holding unevaluated
terms, exactly like `ClassAd._data`. -/
inductive Term where
  | int (n : Int)
  | real (q : Rat)
  | str (v : String)
  | bool (b : Bool)
  | undef
  | err
  | list (xs : List Term)
  | record (fs : List (String × Term))
  | notimpl
  | attr (e : PyName)
  | arith (op : String) (l r : Term)
  | dot (fs : List (String × Term)) (inner : Term)
  | subsc (base idx : Term)

/-- Attribute data of a `ClassAd`. -/
abbrev Attrs := List (String × Term)

mutual

/-- Size of a term, used only to bound the recursion depth of the fuel-indexed
functions below (Python's runtime has no such bound; the fuel is always ample). -/
def tsize : Term → Nat
  | .list xs => 1 + tsizeL xs
  | .record fs => 1 + tsizeD fs
  | .arith _ l r => 1 + tsize l + tsize r
  | .dot fs i => 1 + tsizeD fs + tsize i
  | .subsc a b => 1 + tsize a + tsize b
  | _ => 1
termination_by structural t => t

/-- Combined size of a list of terms. -/
def tsizeL : List Term → Nat
  | [] => 0
  | x :: xs => 1 + tsize x + tsizeL xs
termination_by structural t => t

/-- Combined size of record data. -/
def tsizeD : Attrs → Nat
  | [] => 0
  | (_, v) :: fs => 1 + tsize v + tsizeD fs
termination_by structural t => t

end

/-- First binding of a (case-folded) key in a record's data, like a `dict`
lookup (keys are unique by construction, so first match is the match). -/
def lookupT (k : String) : Attrs → Option Term
  | [] => none
  | (k2, v) :: rest => if k2 = k then some v else lookupT k rest

/-- `ArithmeticExpression.__eq__` considers two operator strings equal when
`operator_map` sends them to the same function (`is` = `=?=`, `isnt` = `=!=`). -/
def opCanon (op : String) : String :=
  if op = "=?=" then "is" else if op = "=!=" then "isnt" else op

/-- Work items for the fuel-indexed computation of Python `==` on terms:
a pair of terms, a pair of tuple contents, or a pending dict comparison. -/
inductive EqJob where
  | tt (a b : Term)
  | ll (xs ys : List Term)
  | dd (fs gs : Attrs)

/-- Python `==` (`operator.eq`), i.e. the `is`/`=?=` operator of
`ArithmeticExpression.operator_map`, with the forward `__eq__`, the reflected
`__eq__` and the final identity fallback already composed per pair of
variants.  Notable source behaviour captured here:

* `HTCFloat.__eq__` compares with any `int`/`float` by numeric value, so an
  `HTCInt` and an `HTCFloat` of equal value compare equal (via reflection);
* `HTCStr.__eq__` is case-sensitive and requires the same type;
* `Undefined`/`Error.__eq__` test only the type;
* `HTCList` inherits `tuple.__eq__` (element-wise, via truthiness of the
  element comparisons, which are always `HTCBool`/`bool` here);
* `ClassAd.__eq__` is type equality plus `dict` equality of `_data`
  (order-insensitive, values compared with Python `==`);
* expression nodes use the structural `Expression.__eq__`
  (`ArithmeticExpression.__eq__` for arithmetic nodes).

The fuel only bounds recursion depth; `pyEqB` below always supplies enough. -/
def pyEqCore : Nat → EqJob → Bool
  | 0, _ => false
  | f+1, .tt a b =>
    match a, b with
    | .undef, .undef => true
    | .undef, _ => false
    | .err, .err => true
    | .err, _ => false
    | .int m, .int n => m == n
    | .int m, .real q => q == (m : Rat)
    | .int _, _ => false
    | .real q, .int n => q == (n : Rat)
    | .real q, .real p => q == p
    | .real _, _ => false
    | .str v, .str w => v == w
    | .str _, _ => false
    | .bool x, .bool y => x == y
    | .bool _, _ => false
    | .list xs, .list ys => pyEqCore f (.ll xs ys)
    | .list _, _ => false
    | .record fs, .record gs =>
      fs.length == gs.length && pyEqCore f (.dd fs gs)
    | .record _, _ => false
    | .notimpl, .notimpl => true
    | .notimpl, _ => false
    | .attr e, .attr e2 => e == e2
    | .attr _, _ => false
    | .arith o l r, .arith o2 l2 r2 =>
      opCanon o == opCanon o2 && pyEqCore f (.tt l l2) && pyEqCore f (.tt r r2)
    | .arith _ _ _, _ => false
    | .dot fs i, .dot gs j =>
      (fs.length == gs.length && pyEqCore f (.dd fs gs)) && pyEqCore f (.tt i j)
    | .dot _ _, _ => false
    | .subsc x y, .subsc x2 y2 =>
      pyEqCore f (.tt x x2) && pyEqCore f (.tt y y2)
    | .subsc _ _, _ => false
  | f+1, .ll xs ys =>
    match xs, ys with
    | [], [] => true
    | x :: xs2, y :: ys2 => pyEqCore f (.tt x y) && pyEqCore f (.ll xs2 ys2)
    | _, _ => false
  | f+1, .dd fs gs =>
    match fs with
    | [] => true
    | (k, v) :: rest =>
      (match lookupT k gs with
       | some w => pyEqCore f (.tt v w)
       | none => false) && pyEqCore f (.dd rest gs)

/-- Python `==` on two runtime objects.  Every recursive step of `pyEqCore`
strictly decreases the combined `tsize` of its payload, so this fuel never
runs out. -/
def pyEqB (a b : Term) : Bool :=
  pyEqCore (1 + tsize a + tsize b) (.tt a b)

/-- Python `!=` (`operator.ne`), i.e. the `isnt`/`=!=` operator of
`ArithmeticExpression.operator_map`.  This is NOT everywhere the negation of
`pyEqB`, faithfully to the source:

* `HTCBool.__ne__` is `(type(self) == type(other) and self._value !=
  other._value) or other is not self._value`; the second disjunct is `True`
  for every operand object that is not a bare Python `True`/`False`, hence
  `HTCBool.__ne__` returns `True` even on identical booleans;
* `HTCFloat.__ne__` returns `HTCBool(False)` for every non-numeric operand
  (also reached reflected, e.g. for a list compared with a float);
* the other classes negate honestly (`Undefined`, `Error`, `HTCStr` via their
  own `__ne__`, `ClassAd` and the expression nodes via `object.__ne__`). -/
def pyNeB (a b : Term) : Bool :=
  match a, b with
  | .undef, x => !(pyEqB .undef x)
  | .err, x => !(pyEqB .err x)
  | .int m, .int n => m != n
  | .int m, .real q => q != (m : Rat)
  | .int _, _ => true
  | .real q, .int n => q != (n : Rat)
  | .real q, .real p => q != p
  | .real _, _ => false
  | .str v, .str w => v != w
  | .str _, _ => true
  | .bool _, _ => true
  | .list xs, .list ys => !(pyEqB (.list xs) (.list ys))
  | .list _, .real _ => false
  | .list _, _ => true
  | .notimpl, .real _ => false
  | .notimpl, x => !(pyEqB .notimpl x)
  | x, y => !(pyEqB x y)

/-- Result of one dunder call: a returned object, `NotImplemented`, or a
raised exception. -/
inductive DRes where
  | val (t : Term)
  | ni
  | exc (e : Exc)

/-- Python binary-operator protocol: try the forward dunder, on
`NotImplemented` the reflected dunder of the right operand, and raise
`TypeError` if both decline.  (No pair of distinct `Term` variants is in a
subclass relation, so the reflected-first rule for subclasses never fires,
and for same-variant pairs the forward table below never returns
`NotImplemented` in a case where the reflected call would succeed.) -/
def dispatch2 (fwd rev : Term → Term → DRes) (a b : Term) : Except Exc Term :=
  match fwd a b with
  | .val v => .ok v
  | .exc e => .error e
  | .ni =>
    match rev b a with
    | .val v => .ok v
    | .exc e => .error e
    | .ni => .error .typeError

/-- `s * n` for a Python string and int (repetition; non-positive gives ""). -/
def strRepeat (s : String) (n : Int) : String :=
  String.join (List.replicate n.toNat s)

/-- `xs * n` for a Python tuple and int. -/
def listRepeat (xs : List Term) (n : Int) : List Term :=
  List.flatten (List.replicate n.toNat xs)

/-- Forward `__add__` of each runtime class: `Undefined.__add__ = __htc_eq__`
(Undefined unless the operand is Error), `Error.__add__` is Error,
`HTCInt.__add__` (Int for ints, NotImplemented for float/Undefined/Error,
Error otherwise), inherited `float.__add__`, `str.__add__`, `tuple.__add__`,
`HTCBool.__add__` and `ClassAd.__add__` (always Error), and nothing on
`NotImplemented`/compound nodes. -/
def addDunder : Term → Term → DRes
  | .undef, .err => .ni
  | .undef, _ => .val .undef
  | .err, _ => .val .err
  | .int m, .int n => .val (.int (m + n))
  | .int _, .real _ => .ni
  | .int _, .undef => .ni
  | .int _, .err => .ni
  | .int _, _ => .val .err
  | .real q, .int n => .val (.real (q + (n : Rat)))
  | .real q, .real p => .val (.real (q + p))
  | .real _, _ => .ni
  | .str v, .str w => .val (.str (v ++ w))
  | .str _, _ => .ni
  | .bool _, _ => .val .err
  | .list xs, .list ys => .val (.list (xs ++ ys))
  | .list _, _ => .ni
  | .record _, _ => .val .err
  | _, _ => .ni

/-- Reflected `__radd__` (`self` first, the other operand second):
`Undefined.__radd__ = __htc_eq__`, `Error.__radd__` is Error,
`HTCInt.__radd__ = HTCInt.__add__`, native `float.__radd__`,
`ClassAd.__radd__ = ClassAd.__add__`; `str`/`tuple`/`HTCBool` and the rest
have no reflected add. -/
def addRDunder : Term → Term → DRes
  | .undef, .err => .ni
  | .undef, _ => .val .undef
  | .err, _ => .val .err
  | .int n, .int m => .val (.int (m + n))
  | .int _, .real _ => .ni
  | .int _, .undef => .ni
  | .int _, .err => .ni
  | .int _, _ => .val .err
  | .real q, .int m => .val (.real ((m : Rat) + q))
  | .real q, .real p => .val (.real (p + q))
  | .real _, _ => .ni
  | .record _, _ => .val .err
  | _, _ => .ni

/-- Forward `__sub__`: like `__add__` but `str`/`tuple` have no subtraction,
and `ClassAd.__sub__ = ClassAd.__add__`. -/
def subDunder : Term → Term → DRes
  | .undef, .err => .ni
  | .undef, _ => .val .undef
  | .err, _ => .val .err
  | .int m, .int n => .val (.int (m - n))
  | .int _, .real _ => .ni
  | .int _, .undef => .ni
  | .int _, .err => .ni
  | .int _, _ => .val .err
  | .real q, .int n => .val (.real (q - (n : Rat)))
  | .real q, .real p => .val (.real (q - p))
  | .real _, _ => .ni
  | .bool _, _ => .val .err
  | .record _, _ => .val .err
  | _, _ => .ni

/-- Reflected `__rsub__`: native `int.__rsub__`/`float.__rsub__` (numeric
pairs only), `Undefined`/`Error` propagation, `ClassAd.__rsub__ =
ClassAd.__add__`. -/
def subRDunder : Term → Term → DRes
  | .undef, .err => .ni
  | .undef, _ => .val .undef
  | .err, _ => .val .err
  | .int n, .int m => .val (.int (m - n))
  | .int _, _ => .ni
  | .real q, .int m => .val (.real ((m : Rat) - q))
  | .real q, .real p => .val (.real (p - q))
  | .real _, _ => .ni
  | .record _, _ => .val .err
  | _, _ => .ni

/-- Forward `__mul__`: `HTCFloat.__mul__` is overridden (numeric gives Real,
Undefined/Error give NotImplemented, anything else Error); `str.__mul__` and
`tuple.__mul__` repeat for an int operand; `ClassAd` has no `__mul__`. -/
def mulDunder : Term → Term → DRes
  | .undef, .err => .ni
  | .undef, _ => .val .undef
  | .err, _ => .val .err
  | .int m, .int n => .val (.int (m * n))
  | .int _, .real _ => .ni
  | .int _, .undef => .ni
  | .int _, .err => .ni
  | .int _, _ => .val .err
  | .real q, .int n => .val (.real (q * (n : Rat)))
  | .real q, .real p => .val (.real (q * p))
  | .real _, .undef => .ni
  | .real _, .err => .ni
  | .real _, _ => .val .err
  | .str v, .int n => .val (.str (strRepeat v n))
  | .str _, _ => .ni
  | .list xs, .int n => .val (.list (listRepeat xs n))
  | .list _, _ => .ni
  | .bool _, _ => .val .err
  | _, _ => .ni

/-- Reflected `__rmul__`: `HTCFloat.__rmul__ = HTCFloat.__mul__` (so a float
on the right sends a non-numeric, non-sentinel left operand to Error), native
`int.__rmul__`/`str.__rmul__`/`tuple.__rmul__` for the remaining numeric or
repetition pairs, `Undefined`/`Error` propagation. -/
def mulRDunder : Term → Term → DRes
  | .undef, .err => .ni
  | .undef, _ => .val .undef
  | .err, _ => .val .err
  | .int n, .int m => .val (.int (m * n))
  | .int _, _ => .ni
  | .real q, .int m => .val (.real (q * (m : Rat)))
  | .real q, .real p => .val (.real (q * p))
  | .real _, .undef => .ni
  | .real _, .err => .ni
  | .real _, _ => .val .err
  | .str v, .int m => .val (.str (strRepeat v m))
  | .str _, _ => .ni
  | .list xs, .int m => .val (.list (listRepeat xs m))
  | .list _, _ => .ni
  | _, _ => .ni

/-- Forward `__truediv__`: `HTCInt.__truediv__` wraps the quotient of two
ints in `HTCFloat` and catches `ZeroDivisionError` itself, returning the
Error value; the inherited `float.__truediv__` raises on a zero divisor;
`HTCBool.__truediv__` is Error; `str`/`tuple`/`ClassAd` have none. -/
def divDunder : Term → Term → DRes
  | .undef, .err => .ni
  | .undef, _ => .val .undef
  | .err, _ => .val .err
  | .int m, .int n => if n = 0 then .val .err else .val (.real ((m : Rat) / (n : Rat)))
  | .int _, .real _ => .ni
  | .int _, .undef => .ni
  | .int _, .err => .ni
  | .int _, _ => .val .err
  | .real q, .int n => if n = 0 then .exc .zeroDivision else .val (.real (q / (n : Rat)))
  | .real q, .real p => if p = 0 then .exc .zeroDivision else .val (.real (q / p))
  | .real _, _ => .ni
  | .bool _, _ => .val .err
  | _, _ => .ni

/-- Reflected `__rtruediv__`: only the native `int`/`float` ones exist
(numeric pairs, zero divisor raises), plus `Undefined`/`Error` propagation. -/
def divRDunder : Term → Term → DRes
  | .undef, .err => .ni
  | .undef, _ => .val .undef
  | .err, _ => .val .err
  | .int n, .int m => if n = 0 then .exc .zeroDivision else .val (.real ((m : Rat) / (n : Rat)))
  | .int _, _ => .ni
  | .real q, .int m => if q = 0 then .exc .zeroDivision else .val (.real ((m : Rat) / q))
  | .real q, .real p => if q = 0 then .exc .zeroDivision else .val (.real (p / q))
  | .real _, _ => .ni
  | _, _ => .ni

/-- ASCII lower-casing of one character (Python `str.casefold`/`str.lower`
agree with this on the ASCII attribute names of the source and its tests). -/
def lowerChar (c : Char) : Char :=
  if 'A' ≤ c && c ≤ 'Z' then Char.ofNat (c.toNat + 32) else c

/-- `str.casefold` as used by `ClassAd.__setitem__`/`__getitem__`. -/
def caseFold (s : String) : String :=
  String.mk (s.data.map lowerChar)

/-- Code-point lexicographic `<` on character lists, Python's string order. -/
def charsLt : List Char → List Char → Bool
  | _, [] => false
  | [], _ :: _ => true
  | c :: cs, d :: ds => if c = d then charsLt cs ds else decide (c < d)

/-- Python `s < t` on strings. -/
def strLtB (s t : String) : Bool :=
  charsLt s.data t.data

/-- The four ordered-comparison dunders (`__lt__ __le__ __gt__ __ge__`). -/
inductive CmpKind where
  | lt
  | le
  | gt
  | ge
deriving DecidableEq, Repr

/-- The reflected partner of a comparison (`a < b` falls back to `b > a`). -/
def swapCmp : CmpKind → CmpKind
  | .lt => .gt
  | .le => .ge
  | .gt => .lt
  | .ge => .le

/-- A comparison on an ordered carrier. -/
def cmpBy {α : Type} [LT α] [∀ x y : α, Decidable (x < y)] (k : CmpKind) (x y : α) : Bool :=
  match k with
  | .lt => decide (x < y)
  | .le => !(decide (y < x))
  | .gt => decide (y < x)
  | .ge => !(decide (x < y))

/-- Python string comparison for one kind. -/
def cmpStr (k : CmpKind) (s t : String) : Bool :=
  match k with
  | .lt => strLtB s t
  | .le => !(strLtB t s)
  | .gt => strLtB t s
  | .ge => !(strLtB s t)

/-- Work items for the fuel-indexed rich comparison: a full `a OP b`, a
forward dunder call, or a tuple lexicographic comparison. -/
inductive CmpJob where
  | full (k : CmpKind) (a b : Term)
  | fwd (k : CmpKind) (a b : Term)
  | lex (k : CmpKind) (xs ys : List Term)

/-- Python rich comparison.  The forward table is: `HTCInt.__lt__`-family
(HTCBool of the builtin comparison for numeric operands, otherwise the
builtin's `NotImplemented` is passed through; the `except TypeError` inside
is dead code since builtin int comparisons return `NotImplemented` instead of
raising), inherited `float.__lt__`-family, `str` comparisons, `tuple`
lexicographic comparison (which compares the first non-equal element pair
with a full rich comparison and can therefore raise `TypeError` itself),
`HTCBool.__lt__`-family (always the Error value), and the
`Undefined`/`Error.__lt__`-family (`__htc_eq__` aliases).  A full comparison
composes forward, reflected (with the swapped kind) and the final
`TypeError`. -/
def cmpCore : Nat → CmpJob → DRes
  | 0, _ => .exc .fuelExhausted
  | f+1, .full k a b =>
    match cmpCore f (.fwd k a b) with
    | .val v => .val v
    | .exc e => .exc e
    | .ni =>
      match cmpCore f (.fwd (swapCmp k) b a) with
      | .val v => .val v
      | .exc e => .exc e
      | .ni => .exc .typeError
  | f+1, .fwd k a b =>
    match a, b with
    | .undef, .err => .ni
    | .undef, _ => .val .undef
    | .err, _ => .val .err
    | .int m, .int n => .val (.bool (cmpBy k m n))
    | .int m, .real q => .val (.bool (cmpBy k (m : Rat) q))
    | .int _, _ => .ni
    | .real q, .int n => .val (.bool (cmpBy k q (n : Rat)))
    | .real q, .real p => .val (.bool (cmpBy k q p))
    | .real _, _ => .ni
    | .str v, .str w => .val (.bool (cmpStr k v w))
    | .str _, _ => .ni
    | .bool _, _ => .val .err
    | .list xs, .list ys => cmpCore f (.lex k xs ys)
    | _, _ => .ni
  | f+1, .lex k xs ys =>
    match xs, ys with
    | x :: xs2, y :: ys2 =>
      if pyEqB x y then cmpCore f (.lex k xs2 ys2)
      else cmpCore f (.full k x y)
    | xs2, ys2 => .val (.bool (cmpBy k xs2.length ys2.length))

/-- Python `a OP b` for an ordered comparison; the fuel is ample (at most
three work items are spawned per element of the operands). -/
def richCmp (k : CmpKind) (a b : Term) : Except Exc Term :=
  match cmpCore (3 * (tsize a + tsize b) + 9) (.full k a b) with
  | .val v => .ok v
  | .exc e => .error e
  | .ni => .error .typeError

/-- Forward `__htc_eq__` of each class, the `==` operator's dunder
(`_operator.eq_operator` tries it on both operands):

* `Undefined.__htc_eq__`: `NotImplemented` for Error, else Undefined;
* `Error.__htc_eq__`: always Error;
* `HTCInt`: HTCBool for int, `NotImplemented` for Undefined/Error/HTCFloat,
  HTCBool for a bare float (unreachable here), Error otherwise;
* `HTCFloat`: HTCBool by numeric value for int/float, `NotImplemented` for
  Undefined/Error, Error otherwise;
* `HTCStr`: case-insensitive HTCBool for str, else `NotImplemented`;
* `HTCBool`: HTCBool for HTCBool, `NotImplemented` for Undefined/Error,
  Error otherwise;
* `HTCList`: inherits `PrimitiveExpression.__htc_eq__`, `NotImplemented`;
* `ClassAd` / compound nodes / `NotImplemented`: no `__htc_eq__` attribute at
  all (see the `CompoundExpression` note above), so the lookup raises
  `AttributeError`. -/
def htcEqDunder : Term → Term → DRes
  | .undef, .err => .ni
  | .undef, _ => .val .undef
  | .err, _ => .val .err
  | .int m, .int n => .val (.bool (m == n))
  | .int _, .real _ => .ni
  | .int _, .undef => .ni
  | .int _, .err => .ni
  | .int _, _ => .val .err
  | .real q, .int n => .val (.bool (q == (n : Rat)))
  | .real q, .real p => .val (.bool (q == p))
  | .real _, .undef => .ni
  | .real _, .err => .ni
  | .real _, _ => .val .err
  | .str v, .str w => .val (.bool (caseFold v == caseFold w))
  | .str _, _ => .ni
  | .bool x, .bool y => .val (.bool (x == y))
  | .bool _, .undef => .ni
  | .bool _, .err => .ni
  | .bool _, _ => .val .err
  | .list _, _ => .ni
  | .record _, _ => .exc .attributeError
  | .notimpl, _ => .exc .attributeError
  | _, _ => .exc .attributeError

/-- Forward `__htc_ne__`: each class negates its `__htc_eq__` result when
that is an HTCBool and passes it through otherwise (`HTCBool.__htc_ne__` is
`self.__htc_not__().__htc_eq__(other)`). -/
def htcNeDunder : Term → Term → DRes
  | .undef, .err => .ni
  | .undef, _ => .val .undef
  | .err, _ => .val .err
  | .int m, .int n => .val (.bool (m != n))
  | .int _, .real _ => .ni
  | .int _, .undef => .ni
  | .int _, .err => .ni
  | .int _, _ => .val .err
  | .real q, .int n => .val (.bool (q != (n : Rat)))
  | .real q, .real p => .val (.bool (q != p))
  | .real _, .undef => .ni
  | .real _, .err => .ni
  | .real _, _ => .val .err
  | .str v, .str w => .val (.bool (caseFold v != caseFold w))
  | .str _, _ => .ni
  | .bool x, .bool y => .val (.bool ((!x) == y))
  | .bool _, .undef => .ni
  | .bool _, .err => .ni
  | .bool _, _ => .val .err
  | .list _, _ => .ni
  | .record _, _ => .exc .attributeError
  | .notimpl, _ => .exc .attributeError
  | _, _ => .exc .attributeError

/-- `eq_operator` of `_operator.py`: try `a.__htc_eq__(b)`, on
`NotImplemented` try `b.__htc_eq__(a)`, and return whatever comes back —
including the `NotImplemented` sentinel itself when both sides decline
(e.g. two `HTCList`s), which the annotation `Union[HTCBool, Undefined,
Error]` of the source does not admit. -/
def eq_operator (a b : Term) : Except Exc Term :=
  match htcEqDunder a b with
  | .val v => .ok v
  | .exc e => .error e
  | .ni =>
    match htcEqDunder b a with
    | .val v => .ok v
    | .exc e => .error e
    | .ni => .ok .notimpl

/-- `ne_operator` of `_operator.py`, same shape over `__htc_ne__`. -/
def ne_operator (a b : Term) : Except Exc Term :=
  match htcNeDunder a b with
  | .val v => .ok v
  | .exc e => .error e
  | .ni =>
    match htcNeDunder b a with
    | .val v => .ok v
    | .exc e => .error e
    | .ni => .ok .notimpl

/-- Forward `__and__`: `HTCBool.__and__` (false absorbs any operand; true
passes HTCBool/Undefined through and is Error otherwise),
`Undefined.__and__` (false gives false, Error gives `NotImplemented`, else
Undefined), `Error.__and__` is Error, inherited `int.__and__` is BITWISE and
on int pairs, and nothing on float/str/tuple/record. -/
def andDunder : Term → Term → DRes
  | .undef, .bool false => .val (.bool false)
  | .undef, .err => .ni
  | .undef, _ => .val .undef
  | .err, _ => .val .err
  | .bool false, _ => .val (.bool false)
  | .bool true, .bool y => .val (.bool y)
  | .bool true, .undef => .val .undef
  | .bool true, _ => .val .err
  | .int m, .int n => .val (.int (Int.land m n))
  | _, _ => .ni

/-- Reflected `__rand__`: `Undefined.__rand__ = __htc_eq__` (no
false-absorption on the right!), `Error.__rand__` is Error, native
`int.__rand__` for int pairs; `HTCBool` and the rest define none. -/
def andRDunder : Term → Term → DRes
  | .undef, .err => .ni
  | .undef, _ => .val .undef
  | .err, _ => .val .err
  | .int n, .int m => .val (.int (Int.land m n))
  | _, _ => .ni

/-- Forward `__or__`, dual to `__and__` (`HTCBool.__or__` returns true as
soon as the left operand is true). -/
def orDunder : Term → Term → DRes
  | .undef, .bool true => .val (.bool true)
  | .undef, .err => .ni
  | .undef, _ => .val .undef
  | .err, _ => .val .err
  | .bool false, .bool y => .val (.bool y)
  | .bool false, .undef => .val .undef
  | .bool false, _ => .val .err
  | .bool true, _ => .val (.bool true)
  | .int m, .int n => .val (.int (Int.lor m n))
  | _, _ => .ni

/-- Reflected `__ror__`. -/
def orRDunder : Term → Term → DRes
  | .undef, .err => .ni
  | .undef, _ => .val .undef
  | .err, _ => .val .err
  | .int n, .int m => .val (.int (Int.lor m n))
  | _, _ => .ni

/-- `ArithmeticExpression.operator_map[op](first, second)`: the Python
operation each operator string is mapped to (`operator.add` etc. are the
full binary protocol, `==`/`!=` are `eq_operator`/`ne_operator`, `is`/`=?=`
are Python `==`, `isnt`/`=!=` are Python `!=`).  An unknown operator raises
`KeyError`, which `_calculate` does not catch. -/
def operatorApply (op : String) (a b : Term) : Except Exc Term :=
  if op = "+" then dispatch2 addDunder addRDunder a b
  else if op = "-" then dispatch2 subDunder subRDunder a b
  else if op = "*" then dispatch2 mulDunder mulRDunder a b
  else if op = "/" then dispatch2 divDunder divRDunder a b
  else if op = "<" then richCmp .lt a b
  else if op = "<=" then richCmp .le a b
  else if op = ">=" then richCmp .ge a b
  else if op = ">" then richCmp .gt a b
  else if op = "==" then eq_operator a b
  else if op = "!=" then ne_operator a b
  else if op = "&&" then dispatch2 andDunder andRDunder a b
  else if op = "||" then dispatch2 orDunder orRDunder a b
  else if op = "is" then .ok (.bool (pyEqB a b))
  else if op = "=?=" then .ok (.bool (pyEqB a b))
  else if op = "isnt" then .ok (.bool (pyNeB a b))
  else if op = "=!=" then .ok (.bool (pyNeB a b))
  else .error .keyError

/-- `ArithmeticExpression._calculate`: apply the operator and convert a
raised `ArithmeticError` (zero division), `AttributeError` or `TypeError`
into the Error value; other exceptions propagate. -/
def calculate (op : String) (a b : Term) : Except Exc Term :=
  match operatorApply op a b with
  | .ok v => .ok v
  | .error .typeError => .ok .err
  | .error .attributeError => .ok .err
  | .error .zeroDivision => .ok .err
  | .error e => .error e

/-- Is this term the Error value? -/
def isErrT : Term → Bool
  | .err => true
  | _ => false

/-- Is this term the Undefined value? -/
def isUndefT : Term → Bool
  | .undef => true
  | _ => false

/-- Is this term one of the eight lattice values (the claims quantify over
"values"; expression nodes and the `NotImplemented` sentinel are not values)? -/
def isValue : Term → Bool
  | .int _ => true
  | .real _ => true
  | .str _ => true
  | .bool _ => true
  | .undef => true
  | .err => true
  | .list _ => true
  | .record _ => true
  | _ => false

/-- Claim-side table for `==` (C2, as amended): numeric pairs compare by
value, strings case-insensitively, booleans by value; Error wins over
Undefined; a Record as the left operand gives Error even against Undefined;
two Lists, or a List with a String, give the `NotImplemented` sentinel; every
other combination gives Error. -/
def eqSpec : Term → Term → Term
  | .record _, _ => .err
  | .err, _ => .err
  | _, .err => .err
  | .undef, _ => .undef
  | _, .undef => .undef
  | .int m, .int n => .bool (m == n)
  | .int m, .real q => .bool (q == (m : Rat))
  | .real q, .int n => .bool (q == (n : Rat))
  | .real q, .real p => .bool (q == p)
  | .str v, .str w => .bool (caseFold v == caseFold w)
  | .bool x, .bool y => .bool (x == y)
  | .list _, .list _ => .notimpl
  | .list _, .str _ => .notimpl
  | .str _, .list _ => .notimpl
  | _, _ => .err

/-- Claim-side table for `!=` (C2): the Bool negation of `==` where `==`
gives a Bool, and the same sentinel otherwise. -/
def neSpec (a b : Term) : Term :=
  match eqSpec a b with
  | .bool x => .bool (!x)
  | v => v

/-- Claim-side table for `+ - * /` (C3, as amended): Int with Int gives Int
for `+ - *` and Real (true division) for `/`; a numeric pair with a Real
gives Real; division by zero gives Error; an Error operand gives Error; an
Undefined operand gives Undefined, except that a Bool left operand always
gives Error and a Record left operand gives Error under `+` and `-`;
String+String concatenates, String*Int repeats, List+List concatenates,
List*Int repeats; every other combination gives Error. -/
def arithSpec (op : String) (a b : Term) : Term :=
  if isErrT a || isErrT b then .err
  else if isUndefT a then .undef
  else if isUndefT b then
    match a, op with
    | .bool _, _ => .err
    | .record _, "+" => .err
    | .record _, "-" => .err
    | _, _ => .undef
  else
    match op, a, b with
    | "+", .int m, .int n => .int (m + n)
    | "+", .int m, .real q => .real ((m : Rat) + q)
    | "+", .real q, .int n => .real (q + (n : Rat))
    | "+", .real q, .real p => .real (q + p)
    | "+", .str v, .str w => .str (v ++ w)
    | "+", .list xs, .list ys => .list (xs ++ ys)
    | "-", .int m, .int n => .int (m - n)
    | "-", .int m, .real q => .real ((m : Rat) - q)
    | "-", .real q, .int n => .real (q - (n : Rat))
    | "-", .real q, .real p => .real (q - p)
    | "*", .int m, .int n => .int (m * n)
    | "*", .int m, .real q => .real (q * (m : Rat))
    | "*", .real q, .int n => .real (q * (n : Rat))
    | "*", .real q, .real p => .real (q * p)
    | "*", .str v, .int n => .str (strRepeat v n)
    | "*", .list xs, .int n => .list (listRepeat xs n)
    | "/", .int m, .int n => if n = 0 then .err else .real ((m : Rat) / (n : Rat))
    | "/", .int m, .real q => if q = 0 then .err else .real ((m : Rat) / q)
    | "/", .real q, .int n => if n = 0 then .err else .real (q / (n : Rat))
    | "/", .real q, .real p => if p = 0 then .err else .real (q / p)
    | _, _, _ => .err

/-- Claim-side table for `&&` (C4, as amended): the spec's Bool/Undef/Error
truth table, extended by: false on the left absorbs ANY right operand; an
Undefined operand propagates against every non-Bool, non-Error operand; Int
with Int computes the inherited BITWISE and; everything else is Error. -/
def andSpec : Term → Term → Term
  | .bool false, _ => .bool false
  | .err, _ => .err
  | _, .err => .err
  | .bool true, .bool y => .bool y
  | .bool true, .undef => .undef
  | .bool true, _ => .err
  | .undef, .bool false => .bool false
  | .undef, _ => .undef
  | _, .undef => .undef
  | .int m, .int n => .int (Int.land m n)
  | _, _ => .err

/-- Claim-side table for `||` (C4, as amended), dual to `andSpec`. -/
def orSpec : Term → Term → Term
  | .bool true, _ => .bool true
  | .err, _ => .err
  | _, .err => .err
  | .bool false, .bool y => .bool y
  | .bool false, .undef => .undef
  | .bool false, _ => .err
  | .undef, .bool true => .bool true
  | .undef, _ => .undef
  | _, .undef => .undef
  | .int m, .int n => .int (Int.lor m n)
  | _, _ => .err

/-- Is this term numeric (`HTCInt` or `HTCFloat`)? -/
def isNumV : Term → Bool
  | .int _ => true
  | .real _ => true
  | _ => false

/-- Numeric value of a numeric term (junk elsewhere). -/
def numOf : Term → Rat
  | .int n => (n : Rat)
  | .real q => q
  | _ => 0

/-- The truthiness test `if element >= a:` of `quantize`: a full Python rich
comparison followed by `bool()`, which raises `TypeError` on the Undefined
and Error objects (their `__bool__` raises). -/
def geTruth (x a : Term) : Except Exc Bool :=
  match richCmp .ge x a with
  | .ok (.bool b) => .ok b
  | .ok _ => .error .typeError
  | .error e => .error e

/-- The non-list branch of `quantize`: `quotient = HTCFloat(a / b)` inside a
`try/except TypeError` (so a TypeError from the division or from `float()`
of an Undefined/Error/other object becomes the Error value, while a
`ZeroDivisionError` raised by `float.__truediv__` propagates), then
`ceiling(quotient) * b` — the quotient here is always an `HTCFloat`, for
which `ceiling` is `HTCInt(math.ceil(...))`. -/
def quantizeScalar (a b : Term) : Except Exc Term :=
  match dispatch2 divDunder divRDunder a b with
  | .error .typeError => .ok .err
  | .error e => .error e
  | .ok v =>
    match v with
    | .real q => dispatch2 mulDunder mulRDunder (.int ⌈q⌉) b
    | _ => .ok .err

mutual

/-- `quantize` of `_functions.py`: for a list, scan for the first element
`>= a` (a `TypeError` in the comparison gives the Error value) and fall back
to `quantize(a, <last element>)`; an empty list reaches `return quantize(a,
element)` with `element` unbound, raising `NameError`; for a non-list, the
scalar branch. -/
def quantize (a b : Term) : Except Exc Term :=
  match b with
  | .list xs =>
    match xs with
    | [] => .error .nameError
    | x :: rest => quantizeLoop a (x :: rest)
  | _ => quantizeScalar a b
termination_by structural b

/-- The `for element in b` loop of `quantize` with its post-loop fallback on
the last element. -/
def quantizeLoop (a : Term) : List Term → Except Exc Term
  | [] => .error .nameError
  | [x] =>
    (match geTruth x a with
     | .error .typeError => .ok .err
     | .error e => .error e
     | .ok true => .ok x
     | .ok false => quantize a x)
  | x :: y :: ys =>
    (match geTruth x a with
     | .error .typeError => .ok .err
     | .error e => .error e
     | .ok true => .ok x
     | .ok false => quantizeLoop a (y :: ys))
termination_by structural t => t

end

/-- Claim-side value of `quantize(a, b)` for numeric `a`, `b`: the smallest
integral multiple of `b` that is at least `a`, i.e. `ceil(a/b) * b`, carried
in `b`'s numeric type. -/
def quantItSpec (a b : Term) : Term :=
  match b with
  | .int n => .int (⌈numOf a / (n : Rat)⌉ * n)
  | .real p => .real (p * ((⌈numOf a / p⌉ : Int) : Rat))
  | _ => .err

/-- Claim-side scan: the first list element whose numeric value is `≥ a`. -/
def firstGe (aq : Rat) : List Term → Option Term
  | [] => none
  | y :: ys => if aq ≤ numOf y then some y else firstGe aq ys

/-- The `key` argument threaded through `_evaluate`: Python `None`, a list of
name strings (the usual case), or a bare string (arising from `scope_up` of a
string payload in the absolute-reference branch), kept as its characters
because `scope_up` then slices characters. -/
inductive KeyV where
  | none
  | ks (l : List String)
  | kchars (cs : List Char)
deriving DecidableEq, Repr

/-- Python `len(key)`; `len(None)` raises `TypeError`. -/
def keyLen : KeyV → Except Exc Nat
  | .none => .error .typeError
  | .ks l => .ok l.length
  | .kchars cs => .ok cs.length

/-- `len(key)` as a pure bound (0 for `None`, where the loop raises before
using it), used only to pre-compute loop fuel. -/
def keyLenN : KeyV → Nat
  | .none => 0
  | .ks l => l.length
  | .kchars cs => cs.length

/-- `scope_up(key) = key[:-1]` of `_expression.py` (drops the last name, or
the last character of a string key). -/
def scopeUpK : KeyV → KeyV
  | .none => .none
  | .ks l => .ks l.dropLast
  | .kchars cs => .kchars cs.dropLast

/-- One-name lookup of `ClassAd.__getitem__`: case-fold, and a missing key
gives the Undefined value. -/
def getSingle (fs : Attrs) (tok : String) : Term :=
  match lookupT (caseFold tok) fs with
  | some t => t
  | Option.none => Term.undef

/-- The tail of the `__getitem__` walk (`expression = expression[token]`
after the first token): an inner `ClassAd` lookup returns Undefined when
missing; subscripting any non-record intermediate raises `TypeError`. -/
def chainRest : Term → List String → Except Exc Term
  | cur, [] => .ok cur
  | cur, tok :: rest =>
    match cur with
    | .record fs => chainRest (getSingle fs tok) rest
    | _ => .error .typeError

/-- Result of `ClassAd.__getitem__`: an expression, or — for an empty key
iterable — the raw `_data` dict itself. -/
inductive GetRes where
  | expr (t : Term)
  | dict

/-- `ClassAd.__getitem__` over a list of name tokens: the first token is a
raw `dict` access whose `KeyError` is caught (returning Undefined for the
whole call); the rest is the walk. -/
def classadGetList (fs : Attrs) : List String → Except Exc GetRes
  | [] => .ok .dict
  | tok :: rest =>
    match lookupT (caseFold tok) fs with
    | none => .ok (.expr .undef)
    | some e =>
      match chainRest e rest with
      | .ok v => .ok (.expr v)
      | .error e2 => .error e2

/-- `ClassAd.__getitem__` dispatch on the key: a string key becomes the
one-element list, iterating `None` raises `TypeError`. -/
def classadGetK (fs : Attrs) : KeyV → Except Exc GetRes
  | .none => .error .typeError
  | .ks l => classadGetList fs l
  | .kchars cs => classadGetList fs [String.mk cs]

/-- `find_scope` of `AttributeExpression._evaluate`: for a non-empty key,
`classad[current_key]` (raising `TypeError` when the classad is `None`);
for an empty key, the classad itself (possibly `None`). -/
def findScope (key : KeyV) (sel : Option Attrs) : Except Exc (Option Term) :=
  match keyLen key with
  | .error e => .error e
  | .ok n =>
    if n > 0 then
      match sel with
      | none => .error .typeError
      | some fs =>
        match classadGetK fs key with
        | .error e => .error e
        | .ok (.expr t) => .ok (some t)
        | .ok .dict => .ok (some (.record fs))
    else
      .ok (sel.map .record)

/-- `context[expression]` in the resolution loop: `None` and non-record
contexts raise `TypeError`; a record dispatches `__getitem__` on the
`_expression` payload (a tuple key walks its tokens; a nested tuple inside a
token has no `casefold` and raises `AttributeError`; an empty tuple key
yields the raw dict, rendered as the record). -/
def ctxLookup (ctx : Option Term) (lk : PyName) : Except Exc Term :=
  match ctx with
  | none => .error .typeError
  | some (.record fs) =>
    match lk with
    | .s v => .ok (getSingle fs v)
    | .t vs =>
      (match classadGetList fs vs with
       | .ok (.expr t) => .ok t
       | .ok .dict => .ok (.record fs)
       | .error e => .error e)
    | .pr x _ =>
      (match lookupT (caseFold x) fs with
       | none => .ok .undef
       | some _ => .error .attributeError)
  | some _ => .error .typeError

/-- Outcome of the `while isinstance(value, Undefined)` loop: an attribute
value found at some scope key, or the scope chain exhausted at the root. -/
inductive PopRes where
  | found (v : Term) (k : KeyV)
  | exhausted

/-- The scope-popping loop of `AttributeExpression._evaluate` (lines
252-269): look the name up in the current context; on Undefined, stop at an
empty key, otherwise pop one name and recompute the context with
`find_scope` (unprotected: exceptions now propagate).  The fuel is
`keyLenN + 1`, exactly the number of iterations the pops allow. -/
def popLoop (sel : Option Attrs) (lk : PyName) :
    Nat → Option Term → KeyV → Except Exc PopRes
  | 0, _, _ => .error .fuelExhausted
  | f+1, ctx, theKey =>
    match ctxLookup ctx lk with
    | .error e => .error e
    | .ok v =>
      if isUndefT v then
        match keyLen theKey with
        | .error e => .error e
        | .ok n =>
          if n = 0 then .ok .exhausted
          else
            match findScope (scopeUpK theKey) sel with
            | .error e => .error e
            | .ok ctx2 => popLoop sel lk f ctx2 (scopeUpK theKey)
      else .ok (.found v theKey)

/-- `selected_classad != target` of the fall-over guard (Python `!=` with
`None` handled as the interpreter does). -/
def pyNeSel : Option Attrs → Option Attrs → Bool
  | none, none => false
  | none, some _ => true
  | some _, none => true
  | some fs, some gs => pyNeB (.record fs) (.record gs)

/-- Result of the whole search of `AttributeExpression._evaluate`: a found
value with its scope key, Undefined, or the Error value produced by the
protected initial `find_scope`. -/
inductive SearchRes where
  | found (v : Term) (k : KeyV)
  | undefRes
  | errRes

/-- The search of `AttributeExpression._evaluate`: protected initial context
(`except TypeError: return Error()`), the popping loop over the selected
classad, and — when the name was not qualified and the selected classad
differs from a present target — one restart of the loop inside `target` at
the ORIGINAL key (not at target's root).  A second fall-over cannot happen:
the guard then compares the target's dict with itself. -/
def attrSearch (selected : Option Attrs) (theKey key : KeyV) (lk : PyName)
    (sw : Bool) (tgt : Option Attrs) : Except Exc SearchRes :=
  match
    (match theKey, selected with
     | KeyV.none, some fs => Except.ok (some (Term.record fs))
     | tk, sel => findScope tk sel) with
  | .error .typeError => .ok .errRes
  | .error e => .error e
  | .ok ctx =>
    match popLoop selected lk (keyLenN theKey + 1) ctx theKey with
    | .error e => .error e
    | .ok (.found v k) => .ok (.found v k)
    | .ok .exhausted =>
      if tgt.isSome && sw && pyNeSel selected tgt then
        match findScope key tgt with
        | .error e => .error e
        | .ok ctx2 =>
          match popLoop tgt lk (keyLenN key + 1) ctx2 key with
          | .error e => .error e
          | .ok (.found v k) => .ok (.found v k)
          | .ok .exhausted => .ok .undefRes
      else .ok .undefRes

/-- Branch analysis at the top of `AttributeExpression._evaluate` on
`self._expression[0]`: the absolute-reference, `target` and `my` branches
and the default, producing the selected classad, the working key, the lookup
payload and whether the target fall-over is allowed (it is allowed exactly
in the default branch).  `Except.ok none` is the early `return Undefined()`
for a missing `target`/`my`; index errors of the source's tuple/string
indexing raise. -/
def attrPrep (e : PyName) (key : KeyV) (my tgt : Option Attrs) :
    Except Exc (Option (Option Attrs × KeyV × PyName × Bool)) :=
  match e with
  | .s v =>
    match v.data with
    | [] => .error .indexError
    | c :: rest =>
      if c = '.' then
        match rest with
        | [] => .error .indexError
        | c2 :: _ => .ok (some (my, .kchars ([c2].dropLast), .s (String.mk [c2]), false))
      else
        .ok (some (my, key, .s v, true))
  | .t vs =>
    match vs with
    | [] => .error .indexError
    | x :: rest =>
      if x = "." then
        match rest with
        | [] => .error .indexError
        | p :: _ =>
          match p.data with
          | [] => .error .indexError
          | cs@(_ :: _) =>
            .ok (some (my, .kchars cs.dropLast, .s (String.mk [cs.getLastD ' ']), false))
      else if x = "target" then
        match tgt with
        | none => .ok none
        | some _ =>
          match rest with
          | [] => .error .indexError
          | p :: _ => .ok (some (tgt, key, .s p, false))
      else if x = "my" then
        match my with
        | none => .ok none
        | some _ =>
          match rest with
          | [] => .error .indexError
          | p :: _ => .ok (some (my, key, .s p, false))
      else .ok (some (my, key, .t vs, true))
  | .pr x ys =>
    if x = "." then
      match ys with
      | [] => .error .indexError
      | c :: cs => .ok (some (my, .ks (c :: cs).dropLast, .s ((c :: cs).getLastD ""), false))
    else if x = "target" then
      match tgt with
      | none => .ok none
      | some _ => .ok (some (tgt, key, .t ys, false))
    else if x = "my" then
      match my with
      | none => .ok none
      | some _ => .ok (some (my, key, .t ys, false))
    else .ok (some (my, key, .pr x ys, true))

/-- The subscript `operand[index]` of `SubscriptableExpression._evaluate`:
list and string indexing follow Python (negative indices from the end,
`IndexError` out of range, `TypeError` for a non-int index); a record
dispatches `ClassAd.__getitem__` (a string key looks one name up, Undefined
when missing; an `HTCList` key is iterated as tokens; anything else raises
`TypeError`); every other base raises `TypeError`. -/
def getitemT (operand idx : Term) : Except Exc Term :=
  match operand with
  | .record fs =>
    (match idx with
     | .str s => .ok (getSingle fs s)
     | .list xs => recordGetByTerms fs xs
     | _ => .error .typeError)
  | .list xs =>
    (match idx with
     | .int i =>
       let j := if i < 0 then i + xs.length else i
       if h : 0 ≤ j ∧ j.toNat < xs.length then .ok (xs.get ⟨j.toNat, h.2⟩)
       else .error .indexError
     | _ => .error .typeError)
  | .str s =>
    (match idx with
     | .int i =>
       let j := if i < 0 then i + s.data.length else i
       if h : 0 ≤ j ∧ j.toNat < s.data.length then
         .ok (.str (String.mk [s.data.get ⟨j.toNat, h.2⟩]))
       else .error .indexError
     | _ => .error .typeError)
  | _ => .error .typeError
where
  /-- `ClassAd.__getitem__` iterating an `HTCList` of tokens: a non-string
  token has no `casefold` and raises `AttributeError`. -/
  recordGetByTerms (fs : Attrs) : List Term → Except Exc Term
    | [] => .ok (.record fs)
    | .str s :: rest =>
      (match lookupT (caseFold s) fs with
       | none => .ok .undef
       | some e => chainRestT e rest)
    | _ :: _ => .error .attributeError
  /-- Walk of the remaining `HTCList` tokens. -/
  chainRestT : Term → List Term → Except Exc Term
    | cur, [] => .ok cur
    | cur, tok :: rest =>
      (match tok with
       | .str s =>
         (match cur with
          | .record fs => chainRestT (getSingle fs s) rest
          | _ => .error .typeError)
       | _ => .error .attributeError)

/-- `my[key]` of `DotExpression._evaluate` (inside `try/except TypeError`;
the caller converts the `TypeError` to Undefined). -/
def myGetForDot (myR : Option Attrs) (key : KeyV) : Except Exc Term :=
  match myR with
  | none => .error .typeError
  | some fs =>
    match classadGetK fs key with
    | .error e => .error e
    | .ok (.expr t) => .ok t
    | .ok .dict => .ok (.record fs)

/-- The resolution loop of `DotExpression._evaluate`: follow
`AttributeExpression` results inside the scope, tracking the visited
`_expression` payloads in `checked`; a revisit gives Undefined; a miss tries
`my[key]` once as a new scope (removing the just-added payload from
`checked`), and gives Undefined when that fails with `TypeError` or produces
the same scope.  The loop always terminates in Python; the fuel is ample for
every concrete input below. -/
def dotLoop (myR : Option Attrs) (key : KeyV) :
    Nat → Term → List PyName → Term → Except Exc Term
  | 0, _, _, _ => .error .fuelExhausted
  | f+1, scope, checked, toCheck =>
    match toCheck with
    | .attr e =>
      if checked.contains e then .ok .undef
      else
        match ctxLookup (some scope) e with
        | .error e2 => .error e2
        | .ok result =>
          if isUndefT result then
            match myGetForDot myR key with
            | .error .typeError => .ok .undef
            | .error e2 => .error e2
            | .ok newScope =>
              if pyNeB newScope scope then
                dotLoop myR key f newScope checked (.attr e)
              else .ok .undef
          else dotLoop myR key f scope (e :: checked) result
    | _ => .ok toCheck

/-- The evaluator `_evaluate` over the node types the claims need, with fuel
standing for Python's call stack: each recursive `_evaluate` call costs one
unit, and exhaustion models the uncaught `RecursionError`.  `ClassAd`
substitutes itself for `my` when evaluating an attribute
(`ClassAd._evaluate`), primitives evaluate to themselves, and an attribute
value that is itself an `AttributeExpression` is re-evaluated at the scope
key where it was found. -/
def eval : Nat → Term → KeyV → Option Attrs → Option Attrs → Except Exc Term
  | 0, _, _, _, _ => .error .fuelExhausted
  | f+1, t, key, my, tgt =>
    match t with
    | .int n => .ok (.int n)
    | .real q => .ok (.real q)
    | .str s => .ok (.str s)
    | .bool b => .ok (.bool b)
    | .undef => .ok .undef
    | .err => .ok .err
    | .list xs => .ok (.list xs)
    | .notimpl => .ok .notimpl
    | .record fs =>
      (match key with
       | .none => .ok (.record fs)
       | _ =>
         match classadGetK fs key with
         | .error e => .error e
         | .ok .dict => .error .attributeError
         | .ok (.expr e) => eval f e (scopeUpK key) (some fs) tgt)
    | .arith op l r =>
      (match eval f l key my tgt with
       | .error e => .error e
       | .ok a =>
         match eval f r key my tgt with
         | .error e => .error e
         | .ok b => calculate op a b)
    | .subsc base idx =>
      (match eval f base key my tgt with
       | .error e => .error e
       | .ok b =>
         match eval f idx key my tgt with
         | .error e => .error e
         | .ok i =>
           match getitemT b i with
           | .error e => .error e
           | .ok sel => eval f sel key my tgt)
    | .dot fs inner => dotLoop my key f (.record fs) [] inner
    | .attr e =>
      (match attrPrep e key my tgt with
       | .error e2 => .error e2
       | .ok .none => .ok .undef
       | .ok (some (selected, theKey, lk, sw)) =>
         match attrSearch selected theKey key lk sw tgt with
         | .error e2 => .error e2
         | .ok .errRes => .ok .err
         | .ok .undefRes => .ok .undef
         | .ok (.found v k) =>
           match v with
           | .attr e2 => eval f (.attr e2) k my tgt
           | _ => .ok v)

/-- `str.split(".")` for the key argument of `Expression.evaluate`. -/
def splitChars : List Char → List Char → List String
  | [], acc => [String.mk acc.reverse]
  | c :: cs, acc =>
    if c = '.' then String.mk acc.reverse :: splitChars cs []
    else splitChars cs (c :: acc)

/-- Python `key.split(".")`. -/
def splitKey (s : String) : List String :=
  splitChars s.data []

/-- `Expression.evaluate`: a string key is split on dots, `None` is passed
through. -/
def evaluateTop (f : Nat) (t : Term) (key : Option String)
    (myR tgt : Option Attrs) : Except Exc Term :=
  eval f t (match key with | Option.none => KeyV.none | some s => .ks (splitKey s)) myR tgt

/-- The reserved attribute names of `ClassAd.__setitem__` (identical in
`_expression.py` and `_classad.py`). -/
def reservedNames : List String :=
  ["error", "false", "is", "isnt", "parent", "true", "undefined"]

/-- Python dict assignment `self._data[key] = value`: replace in place or
append. -/
def insertAttr : Attrs → String → Term → Attrs
  | [], k, v => [(k, v)]
  | (k2, w) :: rest, k, v =>
    if k2 = k then (k, v) :: rest else (k2, w) :: insertAttr rest k v

/-- `ClassAd.__setitem__`: case-fold the key, raise `ValueError` on a
reserved name (leaving `_data` untouched), otherwise store. -/
def classAdSetItem (fs : Attrs) (key : String) (value : Term) : Except Exc Attrs :=
  let k := caseFold key
  if k ∈ reservedNames then .error .valueError
  else .ok (insertAttr fs k value)

/-- The record `[b = a; a = b]` (attribute names stored case-folded, as
`__setitem__` does). -/
def cycAB : Attrs := [("b", .attr (.s "a")), ("a", .attr (.s "b"))]

/-- The record `[a = a]`. -/
def cycSelf : Attrs := [("a", .attr (.s "a"))]

/-- The matchmaking ad `[rank = TARGET.Memory + TARGET.Mips]`. -/
def mmMy : Attrs :=
  [("rank", .arith "+" (.attr (.t ["target", "Memory"])) (.attr (.t ["target", "Mips"])))]

/-- The matchmaking ad `[Memory = 8; Mips = 10]`. -/
def mmTarget : Attrs := [("memory", .int 8), ("mips", .int 10)]

/-- The ad `[x = [r = a]]`, whose `x.r` evaluates the unqualified `a`. -/
def cexMy : Attrs := [("x", .record [("r", .attr (.s "a"))])]

/-- The ad `[x = [a = 1]; a = 2]`: `a` is 1 inside `x` and 2 at the root. -/
def cexTarget : Attrs := [("x", .record [("a", .int 1)]), ("a", .int 2)]

/-- Modelled from the spec (claim side, for C5): the record reached from `m`
by following the path `q` of record-valued attributes. -/
def recAt? (m : Attrs) : List String → Option Attrs
  | [] => some m
  | x :: rest =>
    match lookupT (caseFold x) m with
    | some (.record fs) => recAt? fs rest
    | _ => Option.none

/-- Modelled from the spec (claim side, for C5): look the name `n` up in the
record at path `p` of `m`. -/
def findAt (m : Attrs) (p : List String) (n : String) : Option Term :=
  (recAt? m p).bind fun fs => lookupT (caseFold n) fs

/-- The chain of scope paths `p, p[:-1], ..., []` (fuelled helper). -/
def chainKeysF : Nat → List String → List (List String)
  | 0, _ => []
  | f+1, p => p :: (if p.isEmpty then [] else chainKeysF f p.dropLast)

/-- The chain of scope paths `p, p[:-1], ..., []`. -/
def chainKeys (p : List String) : List (List String) :=
  chainKeysF (p.length + 1) p

/-- Modelled from the spec (claim side, for C5): the first scope along the
chain from `p` to the root in which `n` is bound, with the value found
there (fuelled helper). -/
def chainFindF : Nat → Attrs → List String → String → Option (Term × List String)
  | 0, _, _, _ => Option.none
  | f+1, m, p, n =>
    match findAt m p n with
    | some v => some (v, p)
    | Option.none => if p.isEmpty then Option.none else chainFindF f m p.dropLast n

/-- Modelled from the spec (claim side, for C5): the first scope along the
chain from `p` to the root in which `n` is bound. -/
def chainFind (m : Attrs) (p : List String) (n : String) : Option (Term × List String) :=
  chainFindF (p.length + 1) m p n

/-- Every scope along the chain from `p` to the root exists as a record in
`m` (the hypothesis under which the walk's `find_scope` calls cannot
raise). -/
def allCtxB (m : Attrs) (p : List String) : Bool :=
  (chainKeys p).all fun q => (recAt? m q).isSome

/-- No scope along the chain binds `n` to the literal Undefined (the walk
treats such a binding as absent, which the claim does not cover). -/
def noUndefAt (m : Attrs) (p : List String) (n : String) : Bool :=
  (chainKeys p).all fun q =>
    match recAt? m q with
    | some r =>
      (match lookupT (caseFold n) r with
       | some .undef => false
       | _ => true)
    | Option.none => true

/-- The chain hypothesis for the scope walk: every scope along
`p, p[:-1], ..., []` exists as a record in `m`, and none of them binds `n`
to the literal Undefined (fuelled helper). -/
def goodChainF : Nat → Attrs → String → List String → Bool
  | 0, _, _, _ => false
  | f+1, m, n, p =>
    (match recAt? m p with
     | some r =>
       (match lookupT (caseFold n) r with
        | some .undef => false
        | _ => true)
     | Option.none => false)
    && (p.isEmpty || goodChainF f m n p.dropLast)

/-- The chain hypothesis for the scope walk. -/
def goodChain (m : Attrs) (n : String) (p : List String) : Bool :=
  goodChainF (p.length + 1) m n p

/-- C1: the meta-equality operators as implemented.  The claim says `is`
yields Bool(true) exactly on identical variant and value and `isnt` is its
Bool negation; the code disagrees on its own documented cases:
`HTCBool(True) =!= HTCBool(True)` evaluates to true (both `is` and `isnt`
are true on identical booleans), `5 =?= 5.0` evaluates to true although the
variants differ (HTCFloat.__eq__ cross-compares numerically), and
`5.0 isnt "x"` evaluates to false while `5.0 is "x"` is also false
(HTCFloat.__ne__ returns false on every non-numeric operand). -/
theorem c1_evaluation :
    calculate "=!=" (.bool true) (.bool true) = .ok (.bool true) ∧
    calculate "isnt" (.bool true) (.bool true) = .ok (.bool true) ∧
    calculate "is" (.bool true) (.bool true) = .ok (.bool true) ∧
    calculate "=?=" (.int 5) (.real 5) = .ok (.bool true) ∧
    calculate "is" (.real 5) (.str "x") = .ok (.bool false) ∧
    calculate "isnt" (.real 5) (.str "x") = .ok (.bool false) := by
  exact ⟨rfl, rfl, rfl, rfl, rfl, rfl⟩

/-- C2 counterexample: the claim says every type combination other than the
numeric/string/bool pairs and the Undefined/Error rules gives Error, but
comparing two Lists with `==` or `!=` returns Python's `NotImplemented`
sentinel (both `__htc_eq__` calls decline and `eq_operator` returns the
sentinel itself), not Error. -/
theorem c2_counterexample :
    calculate "==" (.list [.int 1]) (.list [.int 1]) = .ok .notimpl ∧
    calculate "!=" (.list []) (.list []) = .ok .notimpl ∧
    calculate "==" (.str "a") (.list []) = .ok .notimpl := by
  exact ⟨rfl, rfl, rfl⟩

/-- C2 (amended): for all non-record values, `==` follows the three-valued
table (numeric by value, strings case-insensitively, bools by value, Error
before Undefined) except that two Lists, or a List with a String, give the
`NotImplemented` sentinel instead of Error; `!=` is the Bool negation of
`==` when `==` gives a Bool and the same sentinel otherwise.  (Record
operands are stated for completeness by `eqSpec` but depend on
`CompoundExpression`, whose file is not under `src/`; they are excluded
here.) -/
theorem c2_theorem (a b : Term) (ha : isValue a = true) (hb : isValue b = true)
    (hra : ∀ fs, a ≠ .record fs) (hrb : ∀ fs, b ≠ .record fs) :
    calculate "==" a b = .ok (eqSpec a b) ∧ calculate "!=" a b = .ok (neSpec a b) := by
  cases a <;> cases b <;>
    first
      | exact ⟨rfl, rfl⟩
      | (refine ⟨rfl, ?_⟩
         rename_i x y
         cases x <;> cases y <;> rfl)
      | (simp [isValue] at ha
         done)
      | (simp [isValue] at hb
         done)

/-- C2 witness: `10 == "ABC"` gives Error, via the amended theorem. -/
theorem c2_witness :
    calculate "==" (.int 10) (.str "ABC") = .ok .err :=
  (c2_theorem (.int 10) (.str "ABC") rfl rfl (by intro _ h; cases h) (by intro _ h; cases h)).1

/-- Definitional unfolding of `calculate` at the division operator, used to
expose the zero tests of `__truediv__` to the case split below. -/
theorem calculate_div (a b : Term) :
    calculate "/" a b =
      (match dispatch2 divDunder divRDunder a b with
       | .ok v => .ok v
       | .error .typeError => .ok .err
       | .error .attributeError => .ok .err
       | .error .zeroDivision => .ok .err
       | .error e => .error e) := rfl

/-- C3 counterexample: the claim says Int op Int gives Int, a String (or
List) operand gives Error, and an Undefined operand (when no Error is
present) gives Undefined; but `4 / 2` evaluates to Real 2.0
(`HTCInt.__truediv__` is true division wrapped in `HTCFloat`), `"a" + "b"`
concatenates via the inherited `str.__add__`, `"ab" * 2` repeats,
`{1} + {2}` concatenates tuples, and `False + UNDEFINED` gives Error
(`HTCBool.__add__` ignores its operand). -/
theorem c3_counterexample :
    calculate "/" (.int 4) (.int 2) = .ok (.real 2) ∧
    calculate "+" (.str "a") (.str "b") = .ok (.str "ab") ∧
    calculate "*" (.str "ab") (.int 2) = .ok (.str "abab") ∧
    calculate "+" (.list [.int 1]) (.list [.int 2]) = .ok (.list [.int 1, .int 2]) ∧
    calculate "+" (.bool false) .undef = .ok .err := by
  refine ⟨?_, rfl, rfl, rfl, rfl⟩
  have h : calculate "/" (.int 4) (.int 2) = .ok (.real (((4:Int):Rat) / ((2:Int):Rat))) := rfl
  rw [h]
  norm_num

/-- C3 (amended): for all values, each of `+ - * /` follows `arithSpec`:
Int with Int gives Int for `+ - *` and Real (true division) for `/`;
numeric with Real gives Real; division by zero gives Error; an Error operand
gives Error; an Undefined operand gives Undefined except against a Bool left
operand (always Error) or a Record left operand under `+`/`-`;
String+String, String*Int, List+List, List*Int are concatenation/repetition;
every other combination gives Error. -/
theorem c3_theorem (op : String) (a b : Term)
    (hop : op = "+" ∨ op = "-" ∨ op = "*" ∨ op = "/")
    (ha : isValue a = true) (hb : isValue b = true) :
    calculate op a b = .ok (arithSpec op a b) := by
  rcases hop with rfl | rfl | rfl | rfl <;> cases a <;> cases b <;>
    first
      | rfl
      | (rename_i u v
         rcases eq_or_ne v 0 with rfl | hv
         · rfl
         · simp [calculate_div, dispatch2, divDunder, divRDunder, arithSpec,
             isErrT, isUndefT, hv])
      | (simp [isValue] at ha
         done)
      | (simp [isValue] at hb
         done)

/-- C3 witness: `1 + 2` gives Int 3, via the amended theorem. -/
theorem c3_witness :
    calculate "+" (.int 1) (.int 2) = .ok (.int 3) :=
  c3_theorem "+" (.int 1) (.int 2) (Or.inl rfl) rfl rfl

/-- C4 counterexample: the claim says a non-Bool, non-sentinel operand such
as a String gives Error, but `False && "foo"` evaluates to false (the false
row absorbs any operand), `"foo" && UNDEFINED` evaluates to Undefined
(`Undefined.__rand__` ignores the other operand's type), and `3 && 1`
evaluates to the BITWISE conjunction Int 1 via the inherited `int.__and__`. -/
theorem c4_counterexample :
    calculate "&&" (.bool false) (.str "foo") = .ok (.bool false) ∧
    calculate "&&" (.str "foo") .undef = .ok .undef ∧
    calculate "&&" (.int 3) (.int 1) = .ok (.int 1) ∧
    calculate "||" (.int 2) (.int 1) = .ok (.int 3) := by
  exact ⟨rfl, rfl, rfl, rfl⟩

/-- C4 (amended): for all values, `&&` follows `andSpec` and `||` follows
`orSpec`: the spec's Bool/Undefined/Error tables hold exactly; in addition
false `&&` anything is false and true `||` anything is true; an Undefined
operand propagates against every non-Bool, non-Error operand; Int with Int
is the inherited bitwise operation; everything else is Error. -/
theorem c4_theorem (a b : Term) (ha : isValue a = true) (hb : isValue b = true) :
    calculate "&&" a b = .ok (andSpec a b) ∧ calculate "||" a b = .ok (orSpec a b) := by
  cases a <;> cases b <;>
    first
      | exact ⟨rfl, rfl⟩
      | (rename_i x
         cases x <;> exact ⟨rfl, rfl⟩)
      | (rename_i x y
         cases x <;> cases y <;> exact ⟨rfl, rfl⟩)
      | (simp [isValue] at ha
         done)
      | (simp [isValue] at hb
         done)

/-- C4 witness: `True && UNDEFINED` gives Undefined, via the theorem. -/
theorem c4_witness :
    calculate "&&" (.bool true) .undef = .ok .undef :=
  (c4_theorem (.bool true) .undef rfl rfl).1

/-- A `≥`-shaped decision is the negation of the `<` decision. -/
theorem notLtDecide {α : Type} [LinearOrder α] (x y : α) :
    (!(decide (x < y))) = decide (y ≤ x) := by
  by_cases h : x < y
  · simp [h, not_le.mpr h]
  · simp [h, not_lt.mp h]

/-- On two numeric operands, `element >= a` evaluates to the Bool of the
numeric comparison. -/
theorem geTruth_num (y a : Term) (hy : isNumV y = true) (ha : isNumV a = true) :
    geTruth y a = .ok (decide (numOf a ≤ numOf y)) := by
  cases y <;> cases a <;>
    first
      | (simp [isNumV] at hy
         done)
      | (simp [isNumV] at ha
         done)
      | (rename_i u v
         first
           | (have h : geTruth (.int u) (.int v) = .ok (cmpBy .ge u v) := rfl
              rw [h]
              simp [cmpBy, notLtDecide, numOf, Int.cast_le])
           | (have h : geTruth (.int u) (.real v) = .ok (cmpBy .ge (u : Rat) v) := rfl
              rw [h]
              simp [cmpBy, notLtDecide, numOf])
           | (have h : geTruth (.real u) (.int v) = .ok (cmpBy .ge u (v : Rat)) := rfl
              rw [h]
              simp [cmpBy, notLtDecide, numOf])
           | (have h : geTruth (.real u) (.real v) = .ok (cmpBy .ge u v) := rfl
              rw [h]
              simp [cmpBy, notLtDecide, numOf]))

/-- Against a numeric `a`, `element >= a` raises `TypeError` for every
non-numeric element (both comparison dunders decline, or the result is an
Error/Undefined object whose `bool()` raises). -/
theorem geTruth_nonnum (y a : Term) (ha : isNumV a = true) (hy : isNumV y = false) :
    geTruth y a = .error .typeError := by
  cases y <;> cases a <;>
    first
      | (simp [isNumV] at hy
         done)
      | (simp [isNumV] at ha
         done)
      | rfl

/-- The scalar branch of `quantize` realizes the claimed `ceil(a/b)*b` with
the numeric type of `b`, for numeric operands and a nonzero `b`. -/
theorem quantizeScalar_spec (a b : Term) (ha : isNumV a = true) (hb : isNumV b = true)
    (h0 : numOf b ≠ 0) : quantizeScalar a b = .ok (quantItSpec a b) := by
  cases a <;> cases b <;>
    first
      | (simp [isNumV] at ha
         done)
      | (simp [isNumV] at hb
         done)
      | (rename_i u v
         simp only [numOf] at h0
         have hv : v ≠ 0 := by exact_mod_cast h0
         simp [quantizeScalar, dispatch2, divDunder, divRDunder, mulDunder,
           mulRDunder, quantItSpec, numOf, hv])

/-- If the scan finds a first element `≥ a`, the loop returns it. -/
theorem quantizeLoop_found (a z : Term) (ha : isNumV a = true) :
    ∀ xs, (∀ y ∈ xs, isNumV y = true) → firstGe (numOf a) xs = some z →
      quantizeLoop a xs = .ok z := by
  intro xs
  induction xs with
  | nil =>
    intro _ h
    simp [firstGe] at h
  | cons y ys ih =>
    intro hall hfind
    have hy : isNumV y = true := hall y (by simp)
    have hgt := geTruth_num y a hy ha
    by_cases hcmp : numOf a ≤ numOf y
    · simp only [firstGe, if_pos hcmp, Option.some.injEq] at hfind
      subst hfind
      cases ys with
      | nil => simp [quantizeLoop, hgt, hcmp]
      | cons y2 ys2 => simp [quantizeLoop, hgt, hcmp]
    · simp only [firstGe, if_neg hcmp] at hfind
      cases ys with
      | nil => simp [firstGe] at hfind
      | cons y2 ys2 =>
        have hrec := ih (fun w hw => hall w (List.mem_cons_of_mem y hw)) hfind
        simpa [quantizeLoop, hgt, decide_eq_false hcmp] using hrec

/-- If no element qualifies, the loop falls back to `quantize(a, last)`. -/
theorem quantizeLoop_fallback (a z : Term) (ha : isNumV a = true) :
    ∀ xs, (∀ y ∈ xs, isNumV y = true) → firstGe (numOf a) xs = none →
      xs.getLast? = some z → isNumV z = true → numOf z ≠ 0 →
      quantizeLoop a xs = .ok (quantItSpec a z) := by
  intro xs
  induction xs with
  | nil =>
    intro _ _ h
    simp at h
  | cons y ys ih =>
    intro hall hfind hlast hz h0
    have hy : isNumV y = true := hall y (by simp)
    have hgt := geTruth_num y a hy ha
    by_cases hcmp : numOf a ≤ numOf y
    · simp [firstGe, if_pos hcmp] at hfind
    · simp only [firstGe, if_neg hcmp] at hfind
      cases ys with
      | nil =>
        simp only [List.getLast?_singleton, Option.some.injEq] at hlast
        subst hlast
        have hq : quantize a y = quantizeScalar a y := by
          cases y <;> first | (simp [isNumV] at hy; done) | rfl
        simp [quantizeLoop, hgt, decide_eq_false hcmp, hq,
          quantizeScalar_spec a y ha hz h0]
      | cons y2 ys2 =>
        have hrec := ih (fun w hw => hall w (List.mem_cons_of_mem y hw)) hfind
          (by simpa [List.getLast?_cons_cons] using hlast) hz h0
        simpa [quantizeLoop, hgt, decide_eq_false hcmp] using hrec

/-- A non-numeric element reached by the scan (all earlier elements numeric
and `< a`) makes `quantize` return the Error value. -/
theorem quantizeLoop_badelem (a bad : Term) (ha : isNumV a = true)
    (hbad : isNumV bad = false) :
    ∀ pre rest, (∀ y ∈ pre, isNumV y = true ∧ numOf y < numOf a) →
      quantizeLoop a (pre ++ bad :: rest) = .ok .err := by
  intro pre
  induction pre with
  | nil =>
    intro rest _
    have hge := geTruth_nonnum bad a ha hbad
    cases rest with
    | nil => simp [quantizeLoop, hge]
    | cons r rs => simp [quantizeLoop, hge]
  | cons y pre2 ih =>
    intro rest hall
    have hy := (hall y (by simp)).1
    have hlt := (hall y (by simp)).2
    have hgt := geTruth_num y a hy ha
    have hrec := ih rest (fun w hw => hall w (List.mem_cons_of_mem y hw))
    obtain ⟨w, ws, hw⟩ : ∃ w ws, pre2 ++ bad :: rest = w :: ws := by
      cases h2 : pre2 ++ bad :: rest with
      | nil => simp at h2
      | cons w ws => exact ⟨w, ws, rfl⟩
    rw [List.cons_append, hw]
    rw [hw] at hrec
    simpa [quantizeLoop, hgt, decide_eq_false (not_le.mpr hlt)] using hrec

/-- C8 counterexample: the claim says `quantize` returns Error whenever `a`
or a considered list member is non-numeric, but a string member is compared
with a string `a` by Python's string ordering, so
`quantize("a", {"b"})` returns `"b"`, not Error. -/
theorem c8_counterexample :
    quantize (.str "a") (.list [.str "b"]) = .ok (.str "b") := rfl

/-- C8 (amended): for numeric `a` and numeric nonzero `b`, `quantize(a,b)`
is `ceil(a/b)*b` in `b`'s numeric type; for `b` a list of numeric values it
returns the first element `≥ a`, and if none qualifies, `ceil(a/last)*last`
for the last element (nonzero); a non-numeric member reached by the scan
(all earlier members numeric and `< a`) gives Error — but only when the
comparison with `a` actually raises: comparable non-numeric pairs (e.g. a
string member with a string `a`, see the counterexample) escape the Error
rule the claim states. -/
theorem c8_theorem :
    (∀ a b, isNumV a = true → isNumV b = true → numOf b ≠ 0 →
      quantize a b = .ok (quantItSpec a b)) ∧
    (∀ a xs z, isNumV a = true → (∀ y ∈ xs, isNumV y = true) →
      firstGe (numOf a) xs = some z →
      quantize a (.list xs) = .ok z) ∧
    (∀ a xs z, isNumV a = true → (∀ y ∈ xs, isNumV y = true) →
      firstGe (numOf a) xs = none → xs.getLast? = some z →
      isNumV z = true → numOf z ≠ 0 →
      quantize a (.list xs) = .ok (quantItSpec a z)) ∧
    (∀ a bad pre rest, isNumV a = true → isNumV bad = false →
      (∀ y ∈ pre, isNumV y = true ∧ numOf y < numOf a) →
      quantize a (.list (pre ++ bad :: rest)) = .ok .err) := by
  refine ⟨?_, ?_, ?_, ?_⟩
  · intro a b ha hb h0
    have hq : quantize a b = quantizeScalar a b := by
      cases b <;> first | (simp [isNumV] at hb; done) | rfl
    rw [hq]
    exact quantizeScalar_spec a b ha hb h0
  · intro a xs z ha hall hfind
    cases xs with
    | nil => simp [firstGe] at hfind
    | cons y ys =>
      have h := quantizeLoop_found a z ha (y :: ys) hall hfind
      simpa [quantize] using h
  · intro a xs z ha hall hfind hlast hz h0
    cases xs with
    | nil => simp at hlast
    | cons y ys =>
      have h := quantizeLoop_fallback a z ha (y :: ys) hall hfind hlast hz h0
      simpa [quantize] using h
  · intro a bad pre rest ha hbad hall
    have h := quantizeLoop_badelem a bad ha hbad pre rest hall
    obtain ⟨w, ws, hw⟩ : ∃ w ws, pre ++ bad :: rest = w :: ws := by
      cases h2 : pre ++ bad :: rest with
      | nil => simp at h2
      | cons w ws => exact ⟨w, ws, rfl⟩
    rw [hw] at h ⊢
    simpa [quantize] using h

/-- C8 witness: `quantize(3, 8)` gives Int 8 through the amended theorem. -/
theorem c8_witness :
    quantize (.int 3) (.int 8) = .ok (.int 8) := by
  have h := c8_theorem.1 (.int 3) (.int 8) rfl rfl (by norm_num [numOf])
  rw [h]
  have hc : (⌈(3 : Rat) / (8 : Rat)⌉ : Int) = 1 := by
    rw [Int.ceil_eq_iff] <;> norm_num
  simp [quantItSpec, numOf, hc]

/-- Resolving the unqualified attribute `a` of `[b = a; a = b]` alternates
between the two attributes forever: at every fuel the evaluator runs out. -/
theorem cycDiverge (f : Nat) :
    eval f (.attr (.s "a")) (.ks []) (some cycAB) Option.none = .error .fuelExhausted ∧
    eval f (.attr (.s "b")) (.ks []) (some cycAB) Option.none = .error .fuelExhausted := by
  induction f with
  | zero => exact ⟨rfl, rfl⟩
  | succ f ih =>
    constructor
    · have h : eval (f+1) (.attr (.s "a")) (.ks []) (some cycAB) Option.none
             = eval f (.attr (.s "b")) (.ks []) (some cycAB) Option.none := rfl
      rw [h]; exact ih.2
    · have h : eval (f+1) (.attr (.s "b")) (.ks []) (some cycAB) Option.none
             = eval f (.attr (.s "a")) (.ks []) (some cycAB) Option.none := rfl
      rw [h]; exact ih.1

/-- Resolving the unqualified attribute `a` of `[a = a]` re-evaluates itself
forever: at every fuel the evaluator runs out. -/
theorem selfDiverge (f : Nat) :
    eval f (.attr (.s "a")) (.ks []) (some cycSelf) Option.none = .error .fuelExhausted := by
  induction f with
  | zero => rfl
  | succ f ih =>
    have h : eval (f+1) (.attr (.s "a")) (.ks []) (some cycSelf) Option.none
           = eval f (.attr (.s "a")) (.ks []) (some cycSelf) Option.none := rfl
    rw [h]; exact ih

/-- C6: evaluating the dotted reference `[b=a;a=b].a` detects the cycle and
gives Undefined, as claimed — `DotExpression._evaluate` tracks the visited
payloads.  But cycle detection is confined to that loop: evaluating the same
cyclic record through `ClassAd.evaluate("a")` (`AttributeExpression` has no
`checked` set) recurses without bound — the result is fuel exhaustion (in
Python: `RecursionError`) at EVERY fuel, so the claim's "every expression
whose resolution revisits the same pair" is too broad. -/
theorem c6_theorem :
    evaluateTop 8 (.dot cycAB (.attr (.s "a"))) Option.none Option.none Option.none
      = .ok .undef ∧
    ∀ f, evaluateTop f (.record cycAB) (some "a") Option.none Option.none
      = .error .fuelExhausted := by
  refine ⟨rfl, ?_⟩
  intro f
  cases f with
  | zero => rfl
  | succ f =>
    have h : evaluateTop (f+1) (.record cycAB) (some "a") Option.none Option.none
           = eval f (.attr (.s "b")) (.ks []) (some cycAB) Option.none := rfl
    rw [h]; exact (cycDiverge f).2

/-- C6 counterexample: the cyclic reference chain of `[b=a;a=b]`, entered
through an unqualified evaluation of `a` instead of through the dotted
expression, is not detected — even 256 levels of recursion are exhausted
instead of producing Undefined. -/
theorem c6_counterexample :
    evaluateTop 256 (.record cycAB) (some "a") Option.none Option.none
      = .error .fuelExhausted := by
  have h : ∀ f : Nat, evaluateTop (f+1) (.record cycAB) (some "a") Option.none Option.none
         = eval f (.attr (.s "b")) (.ks []) (some cycAB) Option.none := fun _ => rfl
  rw [show (256 : Nat) = 255 + 1 from rfl, h 255]
  exact (cycDiverge 255).2

/-- C10: evaluation does NOT terminate on every input — there is no
recursion limit anywhere in `_evaluate`.  The one-attribute record `[a = a]`
exhausts EVERY fuel (the Python code recurses `AttributeExpression._evaluate
→ eval of the found expression → ...` until the interpreter's
`RecursionError` kills it), so no enforced bound or iterative strategy
exists. -/
theorem c10_evaluation :
    ∀ f, evaluateTop f (.record cycSelf) (some "a") Option.none Option.none
      = .error .fuelExhausted := by
  intro f
  cases f with
  | zero => rfl
  | succ f =>
    have h : evaluateTop (f+1) (.record cycSelf) (some "a") Option.none Option.none
           = eval f (.attr (.s "a")) (.ks []) (some cycSelf) Option.none := rfl
    rw [h]; exact selfDiverge f

/-- C7: subscripts behave as claimed on the happy paths — an in-range Int
index selects the list element and a missing record attribute gives
Undefined — but an out-of-range Int raises `IndexError` and a non-Int index
on a list raises `TypeError`, and `SubscriptableExpression._evaluate`
catches neither, so the exception escapes `evaluate` instead of producing
the Error value: subscripting the empty list is an uncaught `IndexError`,
not Error. -/
theorem c7_evaluation :
    evaluateTop 8 (.subsc (.list []) (.int 0)) Option.none Option.none Option.none
      = .error .indexError ∧
    evaluateTop 8 (.subsc (.list [.int 1, .int 2]) (.str "x")) Option.none Option.none Option.none
      = .error .typeError ∧
    evaluateTop 8 (.subsc (.list [.int 1, .int 2]) (.int 1)) Option.none Option.none Option.none
      = .ok (.int 2) ∧
    evaluateTop 8 (.subsc (.list [.int 1, .int 2]) (.int (-1))) Option.none Option.none Option.none
      = .ok (.int 2) ∧
    evaluateTop 8 (.subsc (.record [("a", .int 1)]) (.str "b")) Option.none Option.none Option.none
      = .ok .undef :=
  ⟨rfl, rfl, rfl, rfl, rfl⟩

/-- C9: storing an attribute under any name that case-folds to one of the
reserved names raises `ValueError` (`ClassAd.__setitem__`), and because the
raise precedes the `_data` assignment the record is returned unchanged —
the embedding returns no record at all on this path. -/
theorem c9_theorem (fs : Attrs) (key : String) (v : Term)
    (h : caseFold key ∈ reservedNames) :
    classAdSetItem fs key v = .error .valueError := by
  simp [classAdSetItem, h]

/-- C9 witness: `TRUE` case-folds to the reserved `true` and is rejected. -/
theorem c9_witness :
    caseFold "TRUE" ∈ reservedNames ∧
    classAdSetItem [("a", Term.int 1)] "TRUE" (Term.int 2) = .error .valueError :=
  ⟨by decide, c9_theorem [("a", Term.int 1)] "TRUE" (Term.int 2) (by decide)⟩

theorem length_eq_dropLast_succ {α : Type} (p : List α) (hne : p ≠ []) :
    p.length = p.dropLast.length + 1 := by
  have := List.length_pos.mpr hne
  rw [List.length_dropLast]
  omega

theorem isEmpty_false_of_ne {α : Type} (p : List α) (hne : p ≠ []) :
    p.isEmpty = false := by
  cases p with
  | nil => exact absurd rfl hne
  | cons x xs => rfl

theorem goodChain_eq (m : Attrs) (n : String) (p : List String) (hne : p ≠ []) :
    goodChain m n p =
      ((match recAt? m p with
        | some r =>
          (match lookupT (caseFold n) r with
           | some .undef => false
           | _ => true)
        | Option.none => false)
       && goodChain m n p.dropLast) := by
  have h1 : p.length = p.dropLast.length + 1 := length_eq_dropLast_succ p hne
  have hie : p.isEmpty = false := isEmpty_false_of_ne p hne
  unfold goodChain
  rw [h1, goodChainF]
  rw [hie]
  simp

theorem goodChain_some (m : Attrs) (n : String) (p : List String)
    (hg : goodChain m n p = true) : ∃ r, recAt? m p = some r := by
  simp only [goodChain, goodChainF, Bool.and_eq_true] at hg
  cases hr : recAt? m p with
  | none => rw [hr] at hg; simp at hg
  | some r => exact ⟨r, rfl⟩

theorem goodChain_not_undef (m : Attrs) (n : String) (p : List String) (r : Attrs)
    (hg : goodChain m n p = true) (hr : recAt? m p = some r) :
    lookupT (caseFold n) r ≠ some Term.undef := by
  intro hl
  simp [goodChain, goodChainF, hr, hl] at hg

theorem goodChain_dropLast (m : Attrs) (n : String) (p : List String) (hne : p ≠ [])
    (hg : goodChain m n p = true) : goodChain m n p.dropLast = true := by
  rw [goodChain_eq m n p hne, Bool.and_eq_true] at hg
  exact hg.2

theorem chainFind_some_of_findAt (m : Attrs) (p : List String) (n : String)
    (v : Term) (h : findAt m p n = some v) :
    chainFind m p n = some (v, p) := by
  show chainFindF (p.length + 1) m p n = some (v, p)
  simp only [chainFindF]
  rw [h]

theorem chainFind_step (m : Attrs) (p : List String) (n : String) (hne : p ≠ [])
    (h : findAt m p n = Option.none) :
    chainFind m p n = chainFind m p.dropLast n := by
  have h1 : p.length = p.dropLast.length + 1 := length_eq_dropLast_succ p hne
  have hie : p.isEmpty = false := isEmpty_false_of_ne p hne
  unfold chainFind
  rw [h1, chainFindF, h, hie]
  simp

theorem chainFind_nil (m : Attrs) (n : String) (h : findAt m [] n = Option.none) :
    chainFind m [] n = Option.none := by
  show chainFindF 1 m [] n = Option.none
  simp only [chainFindF]
  rw [h]
  rfl

theorem chainRest_of_recAt (q : List String) :
    ∀ (fs r : Attrs), recAt? fs q = some r →
      chainRest (.record fs) q = .ok (.record r) := by
  induction q with
  | nil =>
    intro fs r h
    simp [recAt?] at h
    subst h
    rfl
  | cons x rest ih =>
    intro fs r h
    simp only [recAt?] at h
    cases hl : lookupT (caseFold x) fs with
    | none => rw [hl] at h; simp at h
    | some t =>
      rw [hl] at h
      cases t <;> simp at h
      case record fs2 =>
        have hstep : chainRest (Term.record fs) (x :: rest)
                   = chainRest (Term.record fs2) rest := by
          simp [chainRest, getSingle, hl]
        rw [hstep]
        exact ih fs2 r h

theorem classadGetList_of_recAt (q : List String) (m r : Attrs)
    (h : recAt? m q = some r) (hne : q ≠ []) :
    classadGetList m q = .ok (.expr (.record r)) := by
  cases q with
  | nil => exact absurd rfl hne
  | cons x rest =>
    simp only [recAt?] at h
    cases hl : lookupT (caseFold x) m with
    | none => rw [hl] at h; simp at h
    | some t =>
      rw [hl] at h
      cases t <;> simp at h
      case record fs2 =>
        have hc := chainRest_of_recAt rest fs2 r h
        simp [classadGetList, hl, hc]

theorem findScope_of_recAt (m : Attrs) (q : List String) (r : Attrs)
    (h : recAt? m q = some r) :
    findScope (.ks q) (some m) = .ok (some (.record r)) := by
  cases q with
  | nil =>
    simp [recAt?] at h
    subst h
    rfl
  | cons x rest =>
    have hg := classadGetList_of_recAt (x :: rest) m r h (by simp)
    simp [findScope, keyLen, classadGetK, hg]

theorem isUndefT_false_of_ne (v : Term) (hv : v ≠ Term.undef) :
    isUndefT v = false := by
  cases v <;> first | rfl | exact absurd rfl hv

/-- One full run of the popping loop at the root scope: the name is either
found in `m` itself or the chain is exhausted. -/
theorem popLoop_nil (m : Attrs) (n : String) (f : Nat)
    (hg : goodChain m n [] = true) :
    popLoop (some m) (.s n) (f + 1) (some (.record m)) (.ks []) =
      .ok (match chainFind m [] n with
           | some (v, q) => PopRes.found v (.ks q)
           | Option.none => PopRes.exhausted) := by
  cases hl : lookupT (caseFold n) m with
  | none =>
    have hcf : chainFind m [] n = Option.none :=
      chainFind_nil m n (by simp [findAt, recAt?, hl])
    rw [hcf]
    simp [popLoop, ctxLookup, getSingle, hl, isUndefT, keyLen]
  | some v =>
    have hv : v ≠ Term.undef := by
      intro hveq
      exact goodChain_not_undef m n [] m hg (by simp [recAt?]) (hveq ▸ hl)
    have hcf : chainFind m [] n = some (v, []) :=
      chainFind_some_of_findAt m [] n v (by simp [findAt, recAt?, hl])
    rw [hcf]
    simp [popLoop, ctxLookup, getSingle, hl, isUndefT_false_of_ne v hv]

/-- Characterization of the scope-popping loop against the spec-side walk:
with every scope of the chain present and none binding `n` to literal
Undefined, the loop finds exactly what the declarative chain search finds,
at the same scope key, and exhausts exactly when the search fails. -/
theorem popLoop_spec (m : Attrs) (n : String) :
    ∀ (k : Nat) (p : List String), p.length ≤ k →
      ∀ r, goodChain m n p = true → recAt? m p = some r →
        popLoop (some m) (.s n) (p.length + 1) (some (.record r)) (.ks p) =
          .ok (match chainFind m p n with
               | some (v, q) => PopRes.found v (.ks q)
               | Option.none => PopRes.exhausted) := by
  intro k
  induction k with
  | zero =>
    intro p hp r hg hr
    have hpe : p = [] := List.eq_nil_of_length_eq_zero (Nat.le_zero.mp hp)
    subst hpe
    have hrm : r = m := by simpa [recAt?] using hr.symm
    rw [hrm]
    exact popLoop_nil m n 0 hg
  | succ k ih =>
    intro p hp r hg hr
    by_cases hne : p = []
    · subst hne
      have hrm : r = m := by simpa [recAt?] using hr.symm
      rw [hrm]
      exact popLoop_nil m n 0 hg
    · cases hl : lookupT (caseFold n) r with
      | some v =>
        have hv : v ≠ Term.undef := by
          intro hveq
          exact goodChain_not_undef m n p r hg hr (hveq ▸ hl)
        have hcf : chainFind m p n = some (v, p) :=
          chainFind_some_of_findAt m p n v (by simp [findAt, hr, hl])
        rw [hcf]
        simp [popLoop, ctxLookup, getSingle, hl, isUndefT_false_of_ne v hv]
      | none =>
        have h1 : p.length = p.dropLast.length + 1 := length_eq_dropLast_succ p hne
        have hg2 : goodChain m n p.dropLast = true := goodChain_dropLast m n p hne hg
        obtain ⟨r2, hr2⟩ := goodChain_some m n p.dropLast hg2
        have hfs : findScope (.ks p.dropLast) (some m) = .ok (some (.record r2)) :=
          findScope_of_recAt m p.dropLast r2 hr2
        have hcf : chainFind m p n = chainFind m p.dropLast n :=
          chainFind_step m p n hne (by simp [findAt, hr, hl])
        have hlen : p.dropLast.length ≤ k := by omega
        have hrec := ih p.dropLast hlen r2 hg2 hr2
        rw [hcf]
        have hstep :
            popLoop (some m) (.s n) (p.length + 1) (some (.record r)) (.ks p)
              = popLoop (some m) (.s n) p.length
                  (some (.record r2)) (.ks p.dropLast) := by
          have hn0 : p.length ≠ 0 := by omega
          simp [popLoop, ctxLookup, getSingle, hl, isUndefT, keyLen, scopeUpK,
            hn0, hfs]
        rw [hstep, h1, hrec]

/-- C5 counterexample: the claim says the fall-over "restarts the walk
inside `target` from its root", but `AttributeExpression._evaluate` restarts
at the ORIGINAL scope path `key`, not at the root.  With
`my = [x = [r = a]]` and `target = [x = [a = 1]; a = 2]`, evaluating `x.r`
resolves the unqualified `a` to Int 1 — the binding inside `target.x` — even
though `target`'s root binds `a` to Int 2 (second conjunct), which a
root-restart would have found first. -/
theorem c5_counterexample :
    evaluateTop 16 (.record cexMy) (some "x.r") (some cexMy) (some cexTarget)
      = .ok (.int 1) ∧
    lookupT "a" cexTarget = some (.int 2) :=
  ⟨rfl, rfl⟩

/-- C5: the scope walk behaves as claimed except for where the fall-over
restarts.  General part: for an unqualified name `n` under scope path `p`
(the default `AttributeExpression` branch), when every scope along the
chain exists in both ads and none binds `n` to the literal Undefined, the
search returns the first binding of `n` along `my`'s chain from `p` up to
the root; failing that — `target` being present and a different ad — the
first binding along `target`'s chain FROM `p` (not from the root); failing
both, Undefined.  Concrete part: the claim's matchmaking example evaluates
to Int 18. -/
theorem c5_theorem :
    (∀ (m t : Attrs) (p : List String) (n : String),
       goodChain m n p = true → goodChain t n p = true →
       pyNeB (.record m) (.record t) = true →
       attrSearch (some m) (.ks p) (.ks p) (.s n) true (some t) =
         .ok (match chainFind m p n with
              | some (v, q) => SearchRes.found v (.ks q)
              | Option.none =>
                match chainFind t p n with
                | some (v, q) => SearchRes.found v (.ks q)
                | Option.none => SearchRes.undefRes)) ∧
    evaluateTop 32 (.record mmMy) (some "rank") (some mmMy) (some mmTarget)
      = .ok (.int 18) := by
  constructor
  · intro m t p n hgm hgt hnemt
    obtain ⟨r0, hr0⟩ := goodChain_some m n p hgm
    obtain ⟨r1, hr1⟩ := goodChain_some t n p hgt
    have hfs0 : findScope (.ks p) (some m) = .ok (some (.record r0)) :=
      findScope_of_recAt m p r0 hr0
    have hfs1 : findScope (.ks p) (some t) = .ok (some (.record r1)) :=
      findScope_of_recAt t p r1 hr1
    have hpl0 := popLoop_spec m n p.length p (le_refl _) r0 hgm hr0
    have hpl1 := popLoop_spec t n p.length p (le_refl _) r1 hgt hr1
    cases hcf0 : chainFind m p n with
    | some vq =>
      obtain ⟨v, q⟩ := vq
      rw [hcf0] at hpl0
      simp [attrSearch, hfs0, keyLenN, hpl0]
    | none =>
      rw [hcf0] at hpl0
      cases hcf1 : chainFind t p n with
      | some vq =>
        obtain ⟨v, q⟩ := vq
        rw [hcf1] at hpl1
        simp [attrSearch, hfs0, hfs1, keyLenN, hpl0, hpl1, pyNeSel, hnemt]
      | none =>
        rw [hcf1] at hpl1
        simp [attrSearch, hfs0, hfs1, keyLenN, hpl0, hpl1, pyNeSel, hnemt]
  · rfl

/-- C5 witness: a one-attribute ad whose name resolves at the root scope,
with a distinct target. -/
theorem c5_witness :
    attrSearch (some [("a", Term.int 7)]) (.ks []) (.ks []) (.s "a") true
        (some [("b", Term.int 1)])
      = .ok (.found (.int 7) (.ks [])) := by
  have h := c5_theorem.1 [("a", Term.int 7)] [("b", Term.int 1)] [] "a"
    (by decide) (by decide) (by decide)
  exact h

end ClassadModel
